import Mathlib

/-!
Shallow embedding of the workflow/graph execution engine
(`app/core/engine.py`, `app/db/memory_store.py`, `app/core/models.py`)
and proofs about its traversal algorithm, logging, error handling and
store interaction.

Modelling conventions:
* Python dicts are insertion-ordered association lists; `dict.update`,
  key lookup and key insertion are embedded below (`dictGet?`, `dictSet`,
  `dictUpdate`).
* Node functions are arbitrary async callables that either return a value
  or raise; they are embedded as `NodeFun := StateD → Except String PyRet`.
  `registry.load_from_path` (dynamic import, external to the engine) is an
  environment parameter `Env.load`.
* `time.time()` timestamps are modelled by the engine's iteration counter,
  which is strictly monotone across appended entries, matching the only
  property the code relies on (append order = time order).
* `uuid4()` run-id generation is modelled by a fresh counter in the store.
* Python error messages are kept verbatim except that the single-quote
  characters around interpolated names are elided.
* The `visited_nodes` set in `execute_graph` is written but never read by
  the code, and is omitted.
* The loop of `execute_graph` (engine.py lines 154-226) is embedded as a
  step function `loopStep` (one iteration body: lines 155-226) driven by a
  fuel-based recursion `runLoop` whose fuel is `max_iterations`; the
  `while`/`else` clause (line 227) is the fuel-0 case. `LoopOut` carries
  two ghost counters (`invocations`, `successes`) counting node-function
  calls and node-function calls that returned without raising; they are
  write-only instrumentation and do not influence control flow.
* The `try`/`except` block of lines 153-254 is embedded by having `loopStep`
  and `runLoop` return an explicit `LoopExit` and applying the handler
  (lines 227-254) in `finalizeRun`.
-/

deriving instance DecidableEq for Except

namespace Workflow

/-- Values stored in a run-state dictionary (opaque to the engine). -/
inductive Val where
  | int : Int → Val
  | str : String → Val
  | bool : Bool → Val
  | none : Val
deriving DecidableEq, Repr

/-- A Python dict with `String` keys, as an insertion-ordered association list. -/
abbrev PyDict (α : Type) := List (String × α)

/-- The run state dictionary (`RunState.state`). -/
abbrev StateD := PyDict Val

/-- Python `d.get(k)` / `d[k]`: first binding of `k`, if any. -/
def dictGet? {α : Type} (d : PyDict α) (k : String) : Option α :=
  (d.find? (fun p => p.1 == k)).map (fun p => p.2)

/-- Python `k in d`. -/
def dictContains {α : Type} (d : PyDict α) (k : String) : Bool :=
  d.any (fun p => p.1 == k)

/-- Python `d[k] = v`: overwrite in place if the key exists, else append. -/
def dictSet {α : Type} (d : PyDict α) (k : String) (v : α) : PyDict α :=
  if d.any (fun p => p.1 == k) then
    d.map (fun p => if p.1 == k then (k, v) else p)
  else
    d ++ [(k, v)]

/-- Python `d.update(r)`: set each binding of `r` in `d`, in order. -/
def dictUpdate {α : Type} (d r : PyDict α) : PyDict α :=
  r.foldl (fun acc p => dictSet acc p.1 p.2) d

/-- Shapes a node function's return value can take, as inspected by
`execute_node` (engine.py lines 70-77): a dict, a string, or anything else. -/
inductive PyRet where
  | dict : PyDict Val → PyRet
  | str : String → PyRet
  | other : PyRet
deriving DecidableEq, Repr

/-- A node implementation: run on a state, it returns a value or raises. -/
abbrev NodeFun := StateD → Except String PyRet

/-- The engine's external collaborator for node resolution:
`registry.load_from_path` either returns the callable at a path or raises
`ImportError` (registry.py lines 44-72), carried here as the error message. -/
structure Env where
  load : String → Except String NodeFun

/-- An edge target: a single successor name or a list of candidates
(`GraphDefinition.edges` value type `Union[str, List[str]]`, models.py line 29). -/
inductive EdgeTarget where
  | single : String → EdgeTarget
  | multi : List String → EdgeTarget
deriving DecidableEq, Repr

/-- Graph definition (models.py lines 22-33): node name → function path,
node name → edge target. `metadata` is opaque and omitted. -/
structure GraphDefinition where
  nodes : PyDict String
  edges : PyDict EdgeTarget
deriving DecidableEq, Repr

/-- One entry of the execution log (models.py lines 36-41). -/
structure ExecutionLogEntry where
  node_name : String
  state_snapshot : StateD
  timestamp : Nat
  status : String := "completed"
deriving DecidableEq, Repr

/-- State of a workflow run (models.py lines 44-52). -/
structure RunState where
  run_id : String
  graph_id : String
  state : StateD := []
  log : List ExecutionLogEntry := []
  status : String := "running"
  current_node : Option String := none
  error : Option String := none
deriving DecidableEq, Repr

/-- Hard cap on total node invocations per run (engine.py line 34). -/
def max_iterations : Nat := 1000

/-- Hard cap on consecutive repeats of a single node (engine.py line 35). -/
def max_loop_iterations : Nat := 100

/-- Error raised when the consecutive-repeat cap is hit (engine.py line 194). -/
def loopLimitMsg : String :=
  "Loop iteration limit (" ++ toString max_loop_iterations ++ ") exceeded"

/-- Error recorded when the global iteration cap is hit (engine.py line 230). -/
def maxIterationsMsg : String :=
  "Maximum iterations (" ++ toString max_iterations ++ ") exceeded"

/-- Python `s.startswith(pre)`, modelled on the character sequence. -/
def strStartsWith (s pre : String) : Bool :=
  s.toList.take pre.toList.length == pre.toList

/-- Python slicing `s[n:]`, modelled on the character sequence. -/
def strDrop (s : String) (n : Nat) : String :=
  ⟨s.toList.drop n⟩

/-- `WorkflowEngine.execute_node` (engine.py lines 37-82): invoke the node
function on (a copy of) the state; merge a returned dict into the state;
interpret a returned string; wrap any raised error with the node name.
Returns the updated state and the optional control-flow action. -/
def execute_node (node_name : String) (node_func : NodeFun) (state : StateD) :
    Except String (StateD × Option String) :=
  match node_func state with
  | .error e => .error ("Error executing node " ++ node_name ++ ": " ++ e)
  | .ok result =>
    match result with
    | .dict r => .ok (dictUpdate state r, Option.none)
    | .str s =>
      if s = "repeat" then .ok (state, some "repeat")
      else if strStartsWith s "goto:" then .ok (state, some (strDrop s 5))
      else .ok (state, Option.none)
    | .other => .ok (state, Option.none)

/-- `WorkflowEngine.get_next_nodes` (engine.py lines 84-106): edge lookup;
the state argument is accepted and ignored. -/
def get_next_nodes {σ : Type} (current_node : String) (edges : PyDict EdgeTarget)
    (_state : σ) : Option EdgeTarget :=
  dictGet? edges current_node

/-- How one traversal-loop pass ended: a `break` with status `completed`,
fuel exhaustion (the `while`/`else` clause), or a raised exception carrying
its message and the `current_node` at raise time. -/
inductive LoopExit where
  | brk : LoopExit
  | maxiter : LoopExit
  | exc : String → Option String → LoopExit
deriving DecidableEq, Repr

/-- Result of running the traversal loop: final state, log, exit cause,
final `iteration_count`, and the ghost invocation/success counters. -/
structure LoopOut where
  state : StateD
  log : List ExecutionLogEntry
  exit : LoopExit
  iters : Nat
  invocations : Nat
  successes : Nat
deriving DecidableEq, Repr

/-- Outcome of one iteration body: halt the loop, or continue with updated
current node, loop counter, state, log and ghost counters. -/
inductive StepOut where
  | halt : LoopExit → StateD → List ExecutionLogEntry → Nat → Nat → StepOut
  | next : Option String → Nat → StateD → List ExecutionLogEntry → Nat → Nat → StepOut
deriving DecidableEq, Repr

/-- One pass of the traversal loop body (engine.py lines 155-226), entered
with `iteration_count` already incremented to `iter : Nat`:
completion check, node lookup (`if not node_path` covers both a missing key
and an empty path string), resolution, node execution, log append, and
next-action handling (`repeat` / `goto:` / literal jump / edge routing,
with Python string truthiness for the `elif next_action` tests). -/
def loopStep (env : Env) (graph : GraphDefinition) (iter : Nat)
    (current : Option String) (loop_count : Nat) (st : StateD)
    (log : List ExecutionLogEntry) (inv succ : Nat) : StepOut :=
  match current with
  | Option.none => .halt .brk st log inv succ
  | some cur =>
    match dictGet? graph.nodes cur with
    | Option.none =>
      .halt (.exc ("Node " ++ cur ++ " not found in graph definition") (some cur)) st log inv succ
    | some node_path =>
      if node_path = "" then
        .halt (.exc ("Node " ++ cur ++ " not found in graph definition") (some cur)) st log inv succ
      else
        match env.load node_path with
        | .error e =>
          .halt (.exc ("Failed to load node function " ++ node_path ++ ": " ++ e) (some cur))
            st log inv succ
        | .ok node_func =>
          match execute_node cur node_func st with
          | .error msg => .halt (.exc msg (some cur)) st log (inv + 1) succ
          | .ok (updated_state, next_action) =>
            let entry : ExecutionLogEntry :=
              { node_name := cur, state_snapshot := updated_state,
                timestamp := iter, status := "completed" }
            let log' := log ++ [entry]
            let inv' := inv + 1
            let succ' := succ + 1
            match next_action with
            | some a =>
              if a = "repeat" then
                if max_loop_iterations ≤ loop_count + 1 then
                  .halt (.exc loopLimitMsg (some cur)) updated_state log' inv' succ'
                else
                  .next (some cur) (loop_count + 1) updated_state log' inv' succ'
              else if a ≠ "" ∧ strStartsWith a "goto:" = true then
                .next (some (strDrop a 5)) 0 updated_state log' inv' succ'
              else if a ≠ "" then
                .next (some a) 0 updated_state log' inv' succ'
              else
                match get_next_nodes cur graph.edges updated_state with
                | Option.none => .halt .brk updated_state log' inv' succ'
                | some (.single s) => .next (some s) 0 updated_state log' inv' succ'
                | some (.multi ns) =>
                  match ns with
                  | [] => .halt .brk updated_state log' inv' succ'
                  | n :: _ => .next (some n) 0 updated_state log' inv' succ'
            | Option.none =>
              match get_next_nodes cur graph.edges updated_state with
              | Option.none => .halt .brk updated_state log' inv' succ'
              | some (.single s) => .next (some s) 0 updated_state log' inv' succ'
              | some (.multi ns) =>
                match ns with
                | [] => .halt .brk updated_state log' inv' succ'
                | n :: _ => .next (some n) 0 updated_state log' inv' succ'

/-- The traversal loop (engine.py lines 154-226): run `loopStep` while fuel
remains, incrementing `iteration_count`; fuel exhaustion is the `while` loop
ending by its condition, i.e. the `else` clause of line 227. -/
def runLoop (env : Env) (graph : GraphDefinition) :
    Nat → Nat → Option String → Nat → StateD → List ExecutionLogEntry →
    Nat → Nat → LoopOut
  | 0, iter, _, _, st, log, inv, succ => ⟨st, log, .maxiter, iter, inv, succ⟩
  | rem + 1, iter, current, loop_count, st, log, inv, succ =>
    match loopStep env graph (iter + 1) current loop_count st log inv succ with
    | .halt ex st' log' inv' succ' => ⟨st', log', ex, iter + 1, inv', succ'⟩
    | .next c' lc' st' log' inv' succ' =>
      runLoop env graph rem (iter + 1) c' lc' st' log' inv' succ'

/-- Set the last log entry's status to `error` (engine.py line 244). -/
def markLastError : List ExecutionLogEntry → List ExecutionLogEntry
  | [] => []
  | [e] => [{ e with status := "error" }]
  | e :: e2 :: rest => e :: markLastError (e2 :: rest)

/-- Python `current_node or "unknown"` (engine.py line 247): `None` and the
empty string are falsy. -/
def orUnknown : Option String → String
  | Option.none => "unknown"
  | some s => if s = "" then "unknown" else s

/-- Status of the log's trailing entry, if any. -/
def lastStatus (log : List ExecutionLogEntry) : Option String :=
  log.getLast?.map (fun e => e.status)

/-- The code after the loop (engine.py lines 227-254): the `else` clause for
fuel exhaustion, the normal epilogue, and the `except` handler that marks the
run failed, clears `current_node`, and fixes up the trailing log entry
(synthesizing one, with the state at failure, when the log is empty). -/
def finalizeRun (rs : RunState) (out : LoopOut) : RunState :=
  match out.exit with
  | .brk =>
    { rs with state := out.state, log := out.log, status := "completed",
              current_node := Option.none }
  | .maxiter =>
    { rs with state := out.state, log := out.log, status := "failed",
              error := some maxIterationsMsg, current_node := Option.none }
  | .exc msg cur =>
    if out.log = [] then
      { rs with state := out.state, status := "failed", error := some msg,
                current_node := Option.none,
                log := [{ node_name := orUnknown cur, state_snapshot := out.state,
                          timestamp := out.iters, status := "error" }] }
    else
      { rs with state := out.state, status := "failed", error := some msg,
                current_node := Option.none, log := markLastError out.log }

/-- The in-memory store (memory_store.py lines 9-122): graphs and runs keyed
by id strings, plus a counter modelling `uuid4` freshness. -/
structure Store where
  graphs : PyDict GraphDefinition := []
  runs : PyDict RunState := []
  next_uuid : Nat := 0
deriving DecidableEq, Repr

/-- `MemoryStore.get_graph` (memory_store.py lines 35-45). -/
def Store.get_graph (st : Store) (graph_id : String) : Option GraphDefinition :=
  dictGet? st.graphs graph_id

/-- `MemoryStore.get_run` (memory_store.py lines 78-88). -/
def Store.get_run (st : Store) (run_id : String) : Option RunState :=
  dictGet? st.runs run_id

/-- `MemoryStore.update_run` (memory_store.py lines 90-98). -/
def Store.update_run (st : Store) (run_id : String) (rs : RunState) : Store :=
  { st with runs := dictSet st.runs run_id rs }

/-- The `RunState` stored by `create_run` before traversal begins: status
`running`, an empty log, a top-level copy of the initial state, no current
node and no error. -/
def initialRunState (run_id graph_id : String) (initial_state : StateD) : RunState :=
  { run_id := run_id, graph_id := graph_id, state := initial_state,
    log := [], status := "running", current_node := Option.none,
    error := Option.none }

/-- `MemoryStore.create_run` (memory_store.py lines 56-76): mint a fresh run
id, store a `RunState` with status `running`, an empty log, and a top-level
copy of the initial state, and return the id. -/
def Store.create_run (st : Store) (graph_id : String) (initial_state : StateD) :
    Store × String :=
  let run_id := "run-" ++ toString st.next_uuid
  let rs : RunState := initialRunState run_id graph_id initial_state
  ({ st with runs := dictSet st.runs run_id rs, next_uuid := st.next_uuid + 1 },
   run_id)

/-- Starting-node default (engine.py lines 143-146): the first key of the
node mapping, or the `Graph has no nodes` error when it is empty. -/
def firstNode (graph : GraphDefinition) : Except String String :=
  match graph.nodes with
  | [] => .error "Graph has no nodes"
  | (n, _) :: _ => .ok n

/-- Starting-node determination (engine.py lines 137-146): a truthy
`start_node` must be a declared node name; otherwise fall back to the first
node. Errors raised here escape `execute_graph` uncaught. -/
def resolveStart (graph : GraphDefinition) (start_node : Option String) :
    Except String String :=
  match start_node with
  | some sn =>
    if sn ≠ "" then
      if dictContains graph.nodes sn then .ok sn
      else .error ("Start node " ++ sn ++ " not found in graph")
    else firstNode graph
  | Option.none => firstNode graph

/-- The traversal loop exactly as `execute_graph` starts it: full fuel,
iteration counter 0, loop counter 0, empty log, ghost counters 0. -/
def engineLoop (env : Env) (graph : GraphDefinition) (current : Option String)
    (init : StateD) : LoopOut :=
  runLoop env graph max_iterations 0 current 0 init [] 0 0

/-- `WorkflowEngine.execute_graph` (engine.py lines 108-256): look up the
graph (not-found error, no run created), create a run, determine the start
node (errors here propagate with the run already stored and never updated),
run the traversal loop, apply the epilogue / `except` handler, and persist
the final run state. Returns the (possibly mutated) store together with the
returned run state or the propagated error message. -/
def execute_graph (env : Env) (st : Store) (graph_id : String)
    (initial_state : StateD) (start_node : Option String) :
    Store × Except String RunState :=
  match Store.get_graph st graph_id with
  | Option.none => (st, .error ("Graph " ++ graph_id ++ " not found"))
  | some graph =>
    let created := Store.create_run st graph_id initial_state
    let st1 := created.1
    let run_id := created.2
    match Store.get_run st1 run_id with
    | Option.none => (st1, .error "Failed to create run")
    | some run_state =>
      match resolveStart graph start_node with
      | .error e => (st1, .error e)
      | .ok current =>
        let out := engineLoop env graph (some current) run_state.state
        let final := finalizeRun run_state out
        (Store.update_run st1 run_id final, .ok final)

/-! Concrete environments used by claim-level scenarios. -/

/-- Environment with two well-behaved nodes returning no control-flow
signal (paths `pa`, `pb`). -/
def envCycle : Env :=
  ⟨fun p =>
    if p = "pa" then .ok (fun _ => .ok .other)
    else if p = "pb" then .ok (fun _ => .ok .other)
    else .error "missing"⟩

/-- Two-node graph whose edges form a cycle `a → b → a`. -/
def graphCycle : GraphDefinition :=
  ⟨[("a", "pa"), ("b", "pb")], [("a", .single "b"), ("b", .single "a")]⟩

/-- Environment with a single node (path `pa`) that always returns the
literal control string `repeat`. -/
def envRepeat : Env :=
  ⟨fun p => if p = "pa" then .ok (fun _ => .ok (.str "repeat")) else .error "missing"⟩

/-- One-node graph for the repeating node; it has no edges. -/
def graphRepeat : GraphDefinition := ⟨[("a", "pa")], []⟩

/-- Environment with a single node (path `pa`) that always jumps to itself
with `goto:a`. -/
def envGoto : Env :=
  ⟨fun p => if p = "pa" then .ok (fun _ => .ok (.str "goto:a")) else .error "missing"⟩

/-- One-node graph for the self-jumping node; it has no edges. -/
def graphGoto : GraphDefinition := ⟨[("a", "pa")], []⟩

/-- Environment where node `a` (path `pa`) succeeds with an empty dict and
node `b` (path `pb`) raises. -/
def envFail : Env :=
  ⟨fun p =>
    if p = "pa" then .ok (fun _ => .ok (.dict []))
    else if p = "pb" then .ok (fun _ => .error "boom")
    else .error "missing"⟩

/-- Two-node graph `a → b` for the failing-node scenario. -/
def graphFail : GraphDefinition :=
  ⟨[("a", "pa"), ("b", "pb")], [("a", .single "b")]⟩


/-! Heap-aware refinement of the engine, capturing Python reference
semantics: `dict.copy()` (used for the state passed to nodes, for log
snapshots, and for `create_run`'s copy of the caller-supplied initial
state) copies only the top-level mapping, so nested mutable objects stay
shared between the copies. Nested mutable objects are modelled as integer
cells in an explicit heap, and a state value is either an immutable atom or
a reference to a cell. Control flow is the same as in `loopStep`/`runLoop`;
only the heap threading is new. -/

/-- The heap: mutable cells (standing for nested mutable objects such as a
nested dict or list), addressed by number. -/
abbrev Heap := List (Nat × Int)

def heapGet? (h : Heap) (a : Nat) : Option Int :=
  (h.find? (fun p => p.1 == a)).map (fun p => p.2)

/-- In-place mutation of a heap cell. -/
def heapSet (h : Heap) (a : Nat) (v : Int) : Heap :=
  if h.any (fun p => p.1 == a) then
    h.map (fun p => if p.1 == a then (a, v) else p)
  else
    h ++ [(a, v)]

/-- A state value in the heap-aware model: an immutable atom or a
reference to a shared mutable heap cell. -/
inductive HVal where
  | int : Int → HVal
  | ref : Nat → HVal
deriving DecidableEq, Repr

/-- What a value denotes when read through a given heap. -/
inductive Obs where
  | int : Int → Obs
  | dangling : Obs
deriving DecidableEq, Repr

def observe (h : Heap) : HVal → Obs
  | .int i => .int i
  | .ref a =>
    match heapGet? h a with
    | some i => .int i
    | Option.none => .dangling

/-- The contents of a mapping as seen by a reader holding it: every
reference resolved through the current heap. -/
def observeState (h : Heap) (d : PyDict HVal) : List (String × Obs) :=
  d.map (fun p => (p.1, observe h p.2))

/-- Return value of a heap-aware node function. -/
inductive HRet where
  | dict : PyDict HVal → HRet
  | str : String → HRet
  | other : HRet
deriving DecidableEq, Repr

/-- A heap-aware node implementation: it receives the (shallow-copied)
state and the heap, may mutate heap cells, and returns or raises. -/
abbrev HNodeFun := PyDict HVal → Heap → Except String HRet × Heap

structure HEnv where
  load : String → Except String HNodeFun

/-- Log entry of the heap-aware model; the snapshot is the shallow copy
`updated_state.copy()`: a fresh top-level list whose reference values still
point into the shared heap. -/
structure HLogEntry where
  node_name : String
  state_snapshot : PyDict HVal
  timestamp : Nat
  status : String := "completed"
deriving DecidableEq, Repr

structure HRunState where
  run_id : String
  graph_id : String
  state : PyDict HVal := []
  log : List HLogEntry := []
  status : String := "running"
  current_node : Option String := none
  error : Option String := none
deriving DecidableEq, Repr

/-- `execute_node`, heap-aware: the node runs on `state.copy()` (same
top-level bindings, shared heap) and may mutate the heap. -/
def hExecute_node (node_name : String) (node_func : HNodeFun)
    (state : PyDict HVal) (heap : Heap) :
    Except String (PyDict HVal × Option String) × Heap :=
  match node_func state heap with
  | (.error e, heap') =>
    (.error ("Error executing node " ++ node_name ++ ": " ++ e), heap')
  | (.ok result, heap') =>
    match result with
    | .dict r => (.ok (dictUpdate state r, Option.none), heap')
    | .str s =>
      if s = "repeat" then (.ok (state, some "repeat"), heap')
      else if strStartsWith s "goto:" then (.ok (state, some (strDrop s 5)), heap')
      else (.ok (state, Option.none), heap')
    | .other => (.ok (state, Option.none), heap')

inductive HStepOut where
  | halt : LoopExit → PyDict HVal → List HLogEntry → Heap → HStepOut
  | next : Option String → Nat → PyDict HVal → List HLogEntry → Heap → HStepOut
deriving DecidableEq, Repr

/-- One loop-body pass, heap-aware (same control flow as `loopStep`). -/
def hLoopStep (env : HEnv) (graph : GraphDefinition) (iter : Nat)
    (current : Option String) (loop_count : Nat) (st : PyDict HVal)
    (log : List HLogEntry) (heap : Heap) : HStepOut :=
  match current with
  | Option.none => .halt .brk st log heap
  | some cur =>
    match dictGet? graph.nodes cur with
    | Option.none =>
      .halt (.exc ("Node " ++ cur ++ " not found in graph definition") (some cur)) st log heap
    | some node_path =>
      if node_path = "" then
        .halt (.exc ("Node " ++ cur ++ " not found in graph definition") (some cur)) st log heap
      else
        match env.load node_path with
        | .error e =>
          .halt (.exc ("Failed to load node function " ++ node_path ++ ": " ++ e) (some cur))
            st log heap
        | .ok node_func =>
          match hExecute_node cur node_func st heap with
          | (.error msg, heap') => .halt (.exc msg (some cur)) st log heap'
          | (.ok (updated_state, next_action), heap') =>
            let entry : HLogEntry :=
              { node_name := cur, state_snapshot := updated_state,
                timestamp := iter, status := "completed" }
            let log' := log ++ [entry]
            match next_action with
            | some a =>
              if a = "repeat" then
                if max_loop_iterations ≤ loop_count + 1 then
                  .halt (.exc loopLimitMsg (some cur)) updated_state log' heap'
                else
                  .next (some cur) (loop_count + 1) updated_state log' heap'
              else if a ≠ "" ∧ strStartsWith a "goto:" = true then
                .next (some (strDrop a 5)) 0 updated_state log' heap'
              else if a ≠ "" then
                .next (some a) 0 updated_state log' heap'
              else
                match get_next_nodes cur graph.edges updated_state with
                | Option.none => .halt .brk updated_state log' heap'
                | some (.single s) => .next (some s) 0 updated_state log' heap'
                | some (.multi ns) =>
                  match ns with
                  | [] => .halt .brk updated_state log' heap'
                  | n :: _ => .next (some n) 0 updated_state log' heap'
            | Option.none =>
              match get_next_nodes cur graph.edges updated_state with
              | Option.none => .halt .brk updated_state log' heap'
              | some (.single s) => .next (some s) 0 updated_state log' heap'
              | some (.multi ns) =>
                match ns with
                | [] => .halt .brk updated_state log' heap'
                | n :: _ => .next (some n) 0 updated_state log' heap'

structure HLoopOut where
  state : PyDict HVal
  log : List HLogEntry
  exit : LoopExit
  iters : Nat
  heap : Heap
deriving DecidableEq, Repr

/-- The traversal loop, heap-aware. -/
def hRunLoop (env : HEnv) (graph : GraphDefinition) :
    Nat → Nat → Option String → Nat → PyDict HVal → List HLogEntry → Heap → HLoopOut
  | 0, iter, _, _, st, log, heap => ⟨st, log, .maxiter, iter, heap⟩
  | rem + 1, iter, current, loop_count, st, log, heap =>
    match hLoopStep env graph (iter + 1) current loop_count st log heap with
    | .halt ex st' log' heap' => ⟨st', log', ex, iter + 1, heap'⟩
    | .next c' lc' st' log' heap' =>
      hRunLoop env graph rem (iter + 1) c' lc' st' log' heap'

def hMarkLastError : List HLogEntry → List HLogEntry
  | [] => []
  | [e] => [{ e with status := "error" }]
  | e :: e2 :: rest => e :: hMarkLastError (e2 :: rest)

/-- The post-loop epilogue and `except` handler, heap-aware. -/
def hFinalizeRun (rs : HRunState) (out : HLoopOut) : HRunState :=
  match out.exit with
  | .brk =>
    { rs with state := out.state, log := out.log, status := "completed",
              current_node := Option.none }
  | .maxiter =>
    { rs with state := out.state, log := out.log, status := "failed",
              error := some maxIterationsMsg, current_node := Option.none }
  | .exc msg cur =>
    if out.log = [] then
      { rs with state := out.state, status := "failed", error := some msg,
                current_node := Option.none,
                log := [{ node_name := orUnknown cur, state_snapshot := out.state,
                          timestamp := out.iters, status := "error" }] }
    else
      { rs with state := out.state, status := "failed", error := some msg,
                current_node := Option.none, log := hMarkLastError out.log }

/-- `create_run`, heap-aware: `state = initial_state.copy()` is a shallow
copy — a fresh top-level mapping whose values (including references to
nested mutable objects) are shared with the caller's mapping. -/
def hCreateRun (run_id graph_id : String) (initial_state : PyDict HVal) : HRunState :=
  { run_id := run_id, graph_id := graph_id, state := initial_state,
    log := [], status := "running", current_node := Option.none,
    error := Option.none }

/-- `execute_graph` from run creation onwards, heap-aware (graph already
looked up, start node already validated). Returns the final run state and
the final heap. -/
def hExecuteRun (env : HEnv) (graph : GraphDefinition) (graph_id : String)
    (initial_state : PyDict HVal) (current : String) (heap : Heap) :
    HRunState × Heap :=
  let run_state := hCreateRun "run-0" graph_id initial_state
  let out := hRunLoop env graph max_iterations 0 (some current) 0
    run_state.state [] heap
  (hFinalizeRun run_state out, out.heap)

/-- Heap scenario: node `a` (path `pa`) returns no signal and leaves the
heap alone; node `b` (path `pb`) mutates the nested object at cell 0 in
place (sets it to 99) and returns the mapping `{"y": 1}`. -/
def envHeap : HEnv :=
  ⟨fun p =>
    if p = "pa" then .ok (fun _ h => (.ok .other, h))
    else if p = "pb" then .ok (fun _ h => (.ok (.dict [("y", .int 1)]), heapSet h 0 99))
    else .error "missing"⟩

/-- Two-node graph `a → b` for the heap scenario. -/
def graphHeap : GraphDefinition :=
  ⟨[("a", "pa"), ("b", "pb")], [("a", .single "b")]⟩



/-- A store holding a single graph under the id `g` and no runs. -/
def storeOf (g : GraphDefinition) : Store := ⟨[("g", g)], [], 0⟩

/-- Environment with a single well-behaved node (path `pa`) returning no
control-flow signal. -/
def envOne : Env :=
  ⟨fun p => if p = "pa" then .ok (fun _ => .ok .other) else .error "missing"⟩

/-- One-node graph with no edges: a run completes after one invocation. -/
def graphOne : GraphDefinition := ⟨[("a", "pa")], []⟩

/-- One-node graph whose edge entry is the branching list `["b", "c"]`. -/
def graphBranch : GraphDefinition := ⟨[("a", "pa")], [("a", .multi ["b", "c"])]⟩

/-- The empty graph: no nodes, no edges. -/
def graphEmpty : GraphDefinition := ⟨[], []⟩

/-! ## Proofs -/

/-! Helper lemmas about the dictionary model. -/

theorem dictGet?_nil {α : Type} (k : String) : dictGet? ([] : PyDict α) k = Option.none := by
  simp [dictGet?]

theorem dictGet?_cons {α : Type} (p : String × α) (rest : PyDict α) (k : String) :
    dictGet? (p :: rest) k = if p.1 = k then some p.2 else dictGet? rest k := by
  by_cases hp : p.1 = k <;> simp [dictGet?, List.find?_cons, hp]

theorem dictSet_cons {α : Type} (p : String × α) (rest : PyDict α) (k : String) (v : α) :
    dictSet (p :: rest) k v =
      if p.1 = k then (k, v) :: rest.map (fun q => if q.1 == k then (k, v) else q)
      else p :: dictSet rest k v := by
  by_cases hp : p.1 = k
  · simp [dictSet, hp]
  · by_cases hr : rest.any (fun q => q.1 == k) <;> simp [dictSet, hp, hr]

theorem dictGet?_dictSet_self {α : Type} (d : PyDict α) (k : String) (v : α) :
    dictGet? (dictSet d k v) k = some v := by
  induction d with
  | nil => simp [dictGet?, dictSet]
  | cons p rest ih =>
    rw [dictSet_cons]
    by_cases hp : p.1 = k
    · simp [hp, dictGet?_cons]
    · simpa [hp, dictGet?_cons] using ih

theorem dictGet?_map_setmatch {α : Type} (rest : PyDict α) (k k' : String) (v : α)
    (h : k' ≠ k) :
    dictGet? (rest.map (fun q => if q.1 == k then (k, v) else q)) k' = dictGet? rest k' := by
  induction rest with
  | nil => simp [dictGet?]
  | cons q rest' ih =>
    simp only [beq_iff_eq] at ih
    by_cases hq : q.1 = k
    · simp [dictGet?_cons, hq, Ne.symm h, beq_iff_eq, ih]
    · simp [dictGet?_cons, hq, beq_iff_eq, ih]

theorem dictGet?_dictSet_ne {α : Type} (d : PyDict α) (k k' : String) (v : α)
    (h : k' ≠ k) : dictGet? (dictSet d k v) k' = dictGet? d k' := by
  induction d with
  | nil => simp [dictSet, dictGet?_cons, dictGet?_nil, Ne.symm h]
  | cons p rest ih =>
    rw [dictSet_cons]
    by_cases hp : p.1 = k
    · rw [if_pos hp]
      have haux := dictGet?_map_setmatch rest k k' v h
      simp only [beq_iff_eq] at haux
      simp [dictGet?_cons, hp, Ne.symm h, beq_iff_eq, haux]
    · rw [if_neg hp]
      simp [dictGet?_cons, ih]

theorem dictGet?_dictUpdate_absent {α : Type} (r : PyDict α) :
    ∀ (d : PyDict α) (k : String), (∀ p ∈ r, p.1 ≠ k) →
      dictGet? (dictUpdate d r) k = dictGet? d k := by
  induction r with
  | nil => intro d k _; simp [dictUpdate]
  | cons q rest ih =>
    intro d k h
    have hq : q.1 ≠ k := h q (List.mem_cons_self q rest)
    have hrest : ∀ p ∈ rest, p.1 ≠ k := fun p hp => h p (List.mem_cons_of_mem q hp)
    show dictGet? (dictUpdate (dictSet d q.1 q.2) rest) k = dictGet? d k
    rw [ih (dictSet d q.1 q.2) k hrest, dictGet?_dictSet_ne _ _ _ _ (fun hh => hq hh.symm)]

theorem dictGet?_dictUpdate_present {α : Type} (r : PyDict α) :
    ∀ (d : PyDict α) (k : String) (v : α), (r.map Prod.fst).Nodup →
      dictGet? r k = some v → dictGet? (dictUpdate d r) k = some v := by
  induction r with
  | nil => intro d k v _ hfind; simp [dictGet?] at hfind
  | cons q rest ih =>
    intro d k v hnd hfind
    rw [List.map_cons, List.nodup_cons] at hnd
    rw [dictGet?_cons] at hfind
    show dictGet? (dictUpdate (dictSet d q.1 q.2) rest) k = some v
    by_cases hq : q.1 = k
    · rw [if_pos hq] at hfind
      have hrest : ∀ p ∈ rest, p.1 ≠ k := by
        intro p hp hpk
        have hqp : q.1 = p.1 := by rw [hq, hpk]
        exact hnd.1 (hqp ▸ List.mem_map_of_mem Prod.fst hp)
      rw [dictGet?_dictUpdate_absent rest (dictSet d q.1 q.2) k hrest, hq,
        dictGet?_dictSet_self]
      rw [hfind]
    · rw [if_neg hq] at hfind
      exact ih (dictSet d q.1 q.2) k v hnd.2 hfind

/-! Helper lemmas about `markLastError` and `lastStatus`. -/

theorem markLastError_length : ∀ (l : List ExecutionLogEntry),
    (markLastError l).length = l.length := by
  intro l
  induction l with
  | nil => rfl
  | cons e rest ih =>
    cases rest with
    | nil => rfl
    | cons e2 rest' => simpa [markLastError] using ih

theorem lastStatus_markLastError : ∀ (l : List ExecutionLogEntry), l ≠ [] →
    lastStatus (markLastError l) = some "error" := by
  intro l
  induction l with
  | nil => intro h; exact absurd rfl h
  | cons e rest ih =>
    intro _
    cases rest with
    | nil => rfl
    | cons e2 rest' =>
      have h2 : markLastError (e :: e2 :: rest') = e :: markLastError (e2 :: rest') := rfl
      cases h4 : markLastError (e2 :: rest') with
      | nil =>
        have := markLastError_length (e2 :: rest')
        rw [h4] at this
        simp at this
      | cons x xs =>
        rw [h2, h4, lastStatus, List.getLast?_cons_cons, ← lastStatus, ← h4]
        exact ih (by simp)

theorem lastStatus_all_eq : ∀ (l : List ExecutionLogEntry) (s : String), l ≠ [] →
    (∀ e ∈ l, e.status = s) → lastStatus l = some s := by
  intro l s hne hall
  simp [lastStatus, List.getLast?_eq_getLast_of_ne_nil hne,
    hall (l.getLast hne) (List.getLast_mem hne)]

/-! Structural facts about one pass of the traversal loop body. -/

/-- One loop-body pass appends at most one log entry (exactly one when the
loop continues), always with status `completed` and the current iteration
count as timestamp; the ghost counters account for the appended entries and
node invocations; a halt from the body is never the `maxiter` exit. -/
theorem loopStep_spec (env : Env) (graph : GraphDefinition) (iter : Nat)
    (current : Option String) (lc : Nat) (st : StateD)
    (log : List ExecutionLogEntry) (inv succ : Nat) :
    ∃ extra : List ExecutionLogEntry, extra.length ≤ 1 ∧
      (∀ e ∈ extra, e.status = "completed" ∧ e.timestamp = iter) ∧
      match loopStep env graph iter current lc st log inv succ with
      | .halt ex _ log' inv' succ' =>
          ex ≠ .maxiter ∧ log' = log ++ extra ∧ succ' = succ + extra.length ∧
          inv ≤ inv' ∧ inv' ≤ inv + 1 ∧ succ' + inv ≤ succ + inv'
      | .next _ _ _ log' inv' succ' =>
          extra.length = 1 ∧ log' = log ++ extra ∧ succ' = succ + 1 ∧
          inv' = inv + 1 := by
  rcases current with _ | cur
  · exact ⟨[], by simp, by simp, by simp [loopStep]⟩
  rcases h1 : dictGet? graph.nodes cur with _ | path
  · exact ⟨[], by simp, by simp, by simp [loopStep, h1]⟩
  by_cases h2 : path = ""
  · exact ⟨[], by simp, by simp, by simp [loopStep, h1, h2]⟩
  rcases h3 : env.load path with e | f
  · exact ⟨[], by simp, by simp, by simp [loopStep, h1, h2, h3]⟩
  rcases h4 : execute_node cur f st with msg | pair
  · exact ⟨[], by simp, by simp, by simp [loopStep, h1, h2, h3, h4]; try omega⟩
  rcases pair with ⟨st2, act⟩
  refine ⟨[{ node_name := cur, state_snapshot := st2, timestamp := iter,
             status := "completed" }], by simp, by simp, ?_⟩
  rcases act with _ | a
  · rcases h5 : get_next_nodes cur graph.edges st2 with _ | et
    · simp [loopStep, h1, h2, h3, h4, h5] <;> try omega
    rcases et with s | ns
    · simp [loopStep, h1, h2, h3, h4, h5] <;> try omega
    rcases ns with _ | ⟨n, ns'⟩
    · simp [loopStep, h1, h2, h3, h4, h5] <;> try omega
    · simp [loopStep, h1, h2, h3, h4, h5] <;> try omega
  by_cases h6 : a = "repeat"
  · by_cases h7 : max_loop_iterations ≤ lc + 1
    · simp [loopStep, h1, h2, h3, h4, h6, h7] <;> try omega
    · simp [loopStep, h1, h2, h3, h4, h6, h7] <;> try omega
  by_cases h8 : a ≠ "" ∧ strStartsWith a "goto:" = true
  · simp [loopStep, h1, h2, h3, h4, h6, h8] <;> try omega
  by_cases h9 : a = ""
  · rcases h5 : get_next_nodes cur graph.edges st2 with _ | et
    · simp [loopStep, h1, h2, h3, h4, h6, h8, h9, h5] <;> try omega
    rcases et with s | ns
    · simp [loopStep, h1, h2, h3, h4, h6, h8, h9, h5] <;> try omega
    rcases ns with _ | ⟨n, ns'⟩
    · simp [loopStep, h1, h2, h3, h4, h6, h8, h9, h5] <;> try omega
    · simp [loopStep, h1, h2, h3, h4, h6, h8, h9, h5] <;> try omega
  · have h10 : ¬ strStartsWith a "goto:" = true := fun hs => h8 ⟨h9, hs⟩
    simp [loopStep, h1, h2, h3, h4, h6, h8, h9, h10] <;> try omega

theorem pairwise_of_length_le_one {α : Type} {R : α → α → Prop} :
    ∀ (l : List α), l.length ≤ 1 → l.Pairwise R := by
  intro l h
  cases l with
  | nil => exact List.Pairwise.nil
  | cons e t =>
    cases t with
    | nil => simp
    | cons e2 t' => simp at h

/-- Master invariant of the traversal loop: the log grows by appended
entries only (`completed` status, strictly increasing timestamps bounded by
the final iteration count), the ghost counters account for entries,
invocations and fuel, and a `maxiter` exit happens exactly at full fuel
consumption with one entry appended per consumed unit. -/
theorem runLoop_spec (env : Env) (graph : GraphDefinition) :
    ∀ (rem iter : Nat) (current : Option String) (lc : Nat) (st : StateD)
      (log : List ExecutionLogEntry) (inv succ : Nat),
    ∃ extra : List ExecutionLogEntry,
      (runLoop env graph rem iter current lc st log inv succ).log = log ++ extra ∧
      (runLoop env graph rem iter current lc st log inv succ).successes
        = succ + extra.length ∧
      inv ≤ (runLoop env graph rem iter current lc st log inv succ).invocations ∧
      (runLoop env graph rem iter current lc st log inv succ).invocations
        ≤ inv + rem ∧
      (runLoop env graph rem iter current lc st log inv succ).successes + inv
        ≤ succ + (runLoop env graph rem iter current lc st log inv succ).invocations ∧
      iter ≤ (runLoop env graph rem iter current lc st log inv succ).iters ∧
      (runLoop env graph rem iter current lc st log inv succ).iters ≤ iter + rem ∧
      (∀ e ∈ extra, iter < e.timestamp ∧
        e.timestamp ≤ (runLoop env graph rem iter current lc st log inv succ).iters ∧
        e.status = "completed") ∧
      extra.Pairwise (fun a b => a.timestamp < b.timestamp) ∧
      ((runLoop env graph rem iter current lc st log inv succ).exit = .maxiter →
        (runLoop env graph rem iter current lc st log inv succ).iters = iter + rem ∧
        extra.length = rem) := by
  intro rem
  induction rem with
  | zero =>
    intro iter current lc st log inv succ
    refine ⟨[], ?_⟩
    simp [runLoop]
  | succ rem ih =>
    intro iter current lc st log inv succ
    obtain ⟨extraS, hlen, hstat, hmatch⟩ :=
      loopStep_spec env graph (iter + 1) current lc st log inv succ
    cases hstep : loopStep env graph (iter + 1) current lc st log inv succ with
    | halt ex st' log' inv' succ' =>
      rw [hstep] at hmatch
      obtain ⟨hx, hlog', hsucc', hi1, hi2, hi3⟩ := hmatch
      have hrl : runLoop env graph (rem + 1) iter current lc st log inv succ =
          ⟨st', log', ex, iter + 1, inv', succ'⟩ := by
        simp [runLoop, hstep]
      rw [hrl]
      dsimp only
      refine ⟨extraS, hlog', hsucc', hi1, by omega, hi3, by omega, by omega, ?_, ?_, ?_⟩
      · intro e he
        obtain ⟨hs, ht⟩ := hstat e he
        exact ⟨by omega, by omega, hs⟩
      · exact pairwise_of_length_le_one extraS hlen
      · intro hmx
        exact absurd hmx hx
    | next c' lc' st' log' inv' succ' =>
      rw [hstep] at hmatch
      obtain ⟨hlen1, hlog', hsucc', hinv'⟩ := hmatch
      have hrl : runLoop env graph (rem + 1) iter current lc st log inv succ =
          runLoop env graph rem (iter + 1) c' lc' st' log' inv' succ' := by
        simp [runLoop, hstep]
      rw [hrl]
      obtain ⟨extraR, h1, h2, h3, h4, h5, h6, h7, h8, h9, h10⟩ :=
        ih (iter + 1) c' lc' st' log' inv' succ'
      rcases extraS with _ | ⟨e0, restS⟩
      · simp at hlen1
      rcases restS with _ | ⟨e1, restS'⟩
      · obtain ⟨hs0, ht0⟩ := hstat e0 (List.mem_singleton_self e0)
        refine ⟨e0 :: extraR, ?_, ?_, by omega, by omega, by omega, by omega, by omega,
          ?_, ?_, ?_⟩
        · rw [h1, hlog']
          simp
        · rw [h2, hsucc']
          simp [Nat.add_assoc, Nat.add_comm 1 extraR.length]
        · intro e he
          rcases List.mem_cons.1 he with he0 | heR
          · subst he0
            exact ⟨by omega, by omega, hs0⟩
          · obtain ⟨ha, hb, hc⟩ := h8 e heR
            exact ⟨by omega, hb, hc⟩
        · rw [List.pairwise_cons]
          refine ⟨?_, h9⟩
          intro b hb
          obtain ⟨ha, _, _⟩ := h8 b hb
          omega
        · intro hmx
          obtain ⟨hiter, hlenR⟩ := h10 hmx
          constructor
          · omega
          · simp [hlenR]
      · simp at hlen1

theorem cycleStep_a (iter lc inv succ : Nat) (st : StateD)
    (log : List ExecutionLogEntry) :
    loopStep envCycle graphCycle iter (some "a") lc st log inv succ =
      .next (some "b") 0 st (log ++ [⟨"a", st, iter, "completed"⟩])
        (inv + 1) (succ + 1) := rfl

theorem cycleStep_b (iter lc inv succ : Nat) (st : StateD)
    (log : List ExecutionLogEntry) :
    loopStep envCycle graphCycle iter (some "b") lc st log inv succ =
      .next (some "a") 0 st (log ++ [⟨"b", st, iter, "completed"⟩])
        (inv + 1) (succ + 1) := rfl

/-- On the cycle graph the loop only ever stops by running out of fuel. -/
theorem cycle_maxiter : ∀ (rem iter lc : Nat) (st : StateD)
    (log : List ExecutionLogEntry) (inv succ : Nat) (cur : String),
    cur = "a" ∨ cur = "b" →
    (runLoop envCycle graphCycle rem iter (some cur) lc st log inv succ).exit
      = .maxiter := by
  intro rem
  induction rem with
  | zero => intro iter lc st log inv succ cur _; rfl
  | succ rem ih =>
    intro iter lc st log inv succ cur hcur
    rcases hcur with rfl | rfl
    · simp only [runLoop, cycleStep_a]
      exact ih (iter + 1) 0 st _ (inv + 1) (succ + 1) "b" (Or.inr rfl)
    · simp only [runLoop, cycleStep_b]
      exact ih (iter + 1) 0 st _ (inv + 1) (succ + 1) "a" (Or.inl rfl)

theorem repeatStep (iter lc inv succ : Nat) (st : StateD)
    (log : List ExecutionLogEntry) (h : lc + 1 < max_loop_iterations) :
    loopStep envRepeat graphRepeat iter (some "a") lc st log inv succ =
      .next (some "a") (lc + 1) st (log ++ [⟨"a", st, iter, "completed"⟩])
        (inv + 1) (succ + 1) := by
  have h100 : ¬ (max_loop_iterations ≤ lc + 1) := by omega
  simp [loopStep, envRepeat, graphRepeat, execute_node, dictGet?, h100]

theorem repeatStepLimit (iter lc inv succ : Nat) (st : StateD)
    (log : List ExecutionLogEntry) (h : max_loop_iterations ≤ lc + 1) :
    loopStep envRepeat graphRepeat iter (some "a") lc st log inv succ =
      .halt (.exc loopLimitMsg (some "a")) st
        (log ++ [⟨"a", st, iter, "completed"⟩]) (inv + 1) (succ + 1) := by
  simp [loopStep, envRepeat, graphRepeat, execute_node, dictGet?, h]

/-- Running the repeating node with `lc + j = 99` raises the loop-limit
error after exactly `j + 1` further invocations, each appending one entry. -/
theorem repeat_run : ∀ (j rem iter lc inv succ : Nat) (st : StateD)
    (log : List ExecutionLogEntry),
    lc + j + 1 = max_loop_iterations → j < rem →
    ∃ extra : List ExecutionLogEntry,
      runLoop envRepeat graphRepeat rem iter (some "a") lc st log inv succ =
        ⟨st, log ++ extra, .exc loopLimitMsg (some "a"), iter + (j + 1),
         inv + (j + 1), succ + (j + 1)⟩ ∧
      extra.length = j + 1 := by
  intro j
  induction j with
  | zero =>
    intro rem iter lc inv succ st log hsum hlt
    obtain ⟨rem', rfl⟩ : ∃ rem', rem = rem' + 1 := ⟨rem - 1, by omega⟩
    refine ⟨[⟨"a", st, iter + 1, "completed"⟩], ?_, rfl⟩
    simp only [runLoop, repeatStepLimit (iter + 1) lc inv succ st log (by omega)]
  | succ j ih =>
    intro rem iter lc inv succ st log hsum hlt
    obtain ⟨rem', rfl⟩ : ∃ rem', rem = rem' + 1 := ⟨rem - 1, by omega⟩
    have hstep := repeatStep (iter + 1) lc inv succ st log (by omega)
    obtain ⟨extra', hrun, hlen⟩ := ih rem' (iter + 1) (lc + 1) (inv + 1) (succ + 1)
      st (log ++ [⟨"a", st, iter + 1, "completed"⟩]) (by omega) (by omega)
    refine ⟨⟨"a", st, iter + 1, "completed"⟩ :: extra', ?_, by simp [hlen]⟩
    simp only [runLoop, hstep]
    rw [hrun]
    simp only [List.append_assoc, List.singleton_append]
    simp only [LoopOut.mk.injEq]
    refine ⟨trivial, trivial, trivial, by omega, by omega, by omega⟩

theorem gotoExec (st : StateD) :
    execute_node "a" (fun _ => .ok (.str "goto:a")) st = .ok (st, some "a") := by
  have hs : strStartsWith "goto:a" "goto:" = true := by decide
  have hd : strDrop "goto:a" 5 = "a" := by decide
  have hr : ("goto:a" = "repeat") = False := by simp
  simp [execute_node, hs, hd, hr]

theorem gotoStep (iter lc inv succ : Nat) (st : StateD)
    (log : List ExecutionLogEntry) :
    loopStep envGoto graphGoto iter (some "a") lc st log inv succ =
      .next (some "a") 0 st (log ++ [⟨"a", st, iter, "completed"⟩])
        (inv + 1) (succ + 1) := by
  have hsa : strStartsWith "a" "goto:" = true ↔ False := by decide
  have hra : ("a" = "repeat") = False := by simp
  have hea : ("a" = "") = False := by simp
  simp [loopStep, envGoto, graphGoto, dictGet?, gotoExec, hsa, hra, hea]

/-- The self-goto node never hits the loop limit: the run only ends when
the fuel (global iteration cap) is exhausted. -/
theorem goto_maxiter : ∀ (rem iter lc : Nat) (st : StateD)
    (log : List ExecutionLogEntry) (inv succ : Nat),
    (runLoop envGoto graphGoto rem iter (some "a") lc st log inv succ).exit
      = .maxiter := by
  intro rem
  induction rem with
  | zero => intro iter lc st log inv succ; rfl
  | succ rem ih =>
    intro iter lc st log inv succ
    simp only [runLoop, gotoStep]
    exact ih (iter + 1) 0 st _ (inv + 1) (succ + 1)


/-! Step-unfolding lemmas for individual control-flow outcomes. -/

/-- A loop pass whose body continues is one unfolding of the recursion. -/
theorem runLoop_succ_next (env : Env) (graph : GraphDefinition)
    (rem iter : Nat) (current : Option String) (lc : Nat) (st : StateD)
    (log : List ExecutionLogEntry) (inv succ : Nat) (c' : Option String)
    (lc' : Nat) (st' : StateD) (log' : List ExecutionLogEntry) (inv' succ' : Nat)
    (h : loopStep env graph (iter + 1) current lc st log inv succ =
      .next c' lc' st' log' inv' succ') :
    runLoop env graph (rem + 1) iter current lc st log inv succ =
      runLoop env graph rem (iter + 1) c' lc' st' log' inv' succ' := by
  simp [runLoop, h]

/-- Loop body on a `repeat` instruction below the cap: the current node is
kept, the loop counter increments, and the edge mapping plays no part. -/
theorem loopStep_repeat (env : Env) (graph : GraphDefinition) (iter : Nat)
    (cur : String) (lc : Nat) (st : StateD) (log : List ExecutionLogEntry)
    (inv succ : Nat) (path : String) (f : NodeFun) (st2 : StateD)
    (h1 : dictGet? graph.nodes cur = some path) (h2 : path ≠ "")
    (h3 : env.load path = .ok f)
    (h4 : execute_node cur f st = .ok (st2, some "repeat"))
    (h5 : lc + 1 < max_loop_iterations) :
    loopStep env graph iter (some cur) lc st log inv succ =
      .next (some cur) (lc + 1) st2 (log ++ [⟨cur, st2, iter, "completed"⟩])
        (inv + 1) (succ + 1) := by
  have h100 : ¬ (max_loop_iterations ≤ lc + 1) := by omega
  simp [loopStep, h1, h2, h3, h4, h100]

/-- Loop body on a literal jump instruction (a non-empty string that is
neither `repeat` nor a `goto:`-prefixed string, e.g. the result of
stripping `goto:`): the current node becomes the jump target and the loop
counter resets to 0, whether or not the target equals the current node. -/
theorem loopStep_jump (env : Env) (graph : GraphDefinition) (iter : Nat)
    (cur : String) (lc : Nat) (st : StateD) (log : List ExecutionLogEntry)
    (inv succ : Nat) (path : String) (f : NodeFun) (st2 : StateD) (a : String)
    (h1 : dictGet? graph.nodes cur = some path) (h2 : path ≠ "")
    (h3 : env.load path = .ok f)
    (h4 : execute_node cur f st = .ok (st2, some a))
    (ha1 : a ≠ "repeat") (ha2 : strStartsWith a "goto:" = false) (ha3 : a ≠ "") :
    loopStep env graph iter (some cur) lc st log inv succ =
      .next (some a) 0 st2 (log ++ [⟨cur, st2, iter, "completed"⟩])
        (inv + 1) (succ + 1) := by
  simp [loopStep, h1, h2, h3, h4, ha1, ha2, ha3]

/-- Loop body falling through to a branching edge: the first candidate is
selected, whatever the run state contains, and the loop counter resets. -/
theorem loopStep_edge_multi (env : Env) (graph : GraphDefinition) (iter : Nat)
    (cur : String) (lc : Nat) (st : StateD) (log : List ExecutionLogEntry)
    (inv succ : Nat) (path : String) (f : NodeFun) (st2 : StateD)
    (n : String) (rest : List String)
    (h1 : dictGet? graph.nodes cur = some path) (h2 : path ≠ "")
    (h3 : env.load path = .ok f)
    (h4 : execute_node cur f st = .ok (st2, Option.none))
    (h5 : dictGet? graph.edges cur = some (.multi (n :: rest))) :
    loopStep env graph iter (some cur) lc st log inv succ =
      .next (some n) 0 st2 (log ++ [⟨cur, st2, iter, "completed"⟩])
        (inv + 1) (succ + 1) := by
  simp [loopStep, h1, h2, h3, h4, get_next_nodes, h5]

/-- Unfolding of `execute_graph` when the graph exists and the start node
resolves: the run is created, the loop runs, and the finalized run state is
both stored and returned. -/
theorem execute_graph_eq (env : Env) (st : Store) (graph_id : String)
    (init : StateD) (start : Option String) (graph : GraphDefinition)
    (current : String) (hg : Store.get_graph st graph_id = some graph)
    (hs : resolveStart graph start = .ok current) :
    execute_graph env st graph_id init start =
      (Store.update_run (Store.create_run st graph_id init).1
        (Store.create_run st graph_id init).2
        (finalizeRun
          (initialRunState (Store.create_run st graph_id init).2 graph_id init)
          (engineLoop env graph (some current) init)),
       .ok (finalizeRun
          (initialRunState (Store.create_run st graph_id init).2 graph_id init)
          (engineLoop env graph (some current) init))) := by
  have hget : Store.get_run (Store.create_run st graph_id init).1
      (Store.create_run st graph_id init).2 =
      some (initialRunState (Store.create_run st graph_id init).2 graph_id init) := by
    show dictGet? (dictSet st.runs _ _) _ = _
    exact dictGet?_dictSet_self st.runs _ _
  simp only [execute_graph, hg, hget, hs, initialRunState]


/-! ## Claim theorems -/

/-- Claim C5: when a node invocation returns a mapping, the engine merges
it into the run state field by field: `execute_node` applies the dict
update; every key present in the returned mapping gets its value from the
mapping, every absent key keeps its previous value; and state
`{"x": 0, "y": 2}` merged with return value `{"x": 1}` yields
`{"x": 1, "y": 2}`. -/
theorem C5_merge_semantics :
    (∀ (name : String) (f : NodeFun) (state r : StateD),
      f state = .ok (.dict r) →
      execute_node name f state = .ok (dictUpdate state r, Option.none)) ∧
    (∀ (state r : StateD) (k : String) (v : Val),
      (r.map Prod.fst).Nodup → dictGet? r k = some v →
      dictGet? (dictUpdate state r) k = some v) ∧
    (∀ (state r : StateD) (k : String),
      dictGet? r k = Option.none →
      dictGet? (dictUpdate state r) k = dictGet? state k) ∧
    dictUpdate [("x", Val.int 0), ("y", Val.int 2)] [("x", Val.int 1)]
      = [("x", Val.int 1), ("y", Val.int 2)] := by
  refine ⟨?_, ?_, ?_, by decide⟩
  · intro name f state r hf
    simp [execute_node, hf]
  · intro state r k v hnd hget
    exact dictGet?_dictUpdate_present r state k v hnd hget
  · intro state r k hnone
    apply dictGet?_dictUpdate_absent
    intro p hp hpk
    have hfind : r.find? (fun q => q.1 == k) = Option.none := by
      rcases hf : r.find? (fun q => q.1 == k) with _ | q
      · exact hf
      · rw [dictGet?, hf] at hnone
        simp at hnone
    have hnp := List.find?_eq_none.mp hfind p hp
    simp [hpk] at hnp

theorem C5_witness :
    execute_node "n" (fun _ => .ok (.dict [("x", Val.int 1)]))
        [("x", Val.int 0), ("y", Val.int 2)] =
      .ok (dictUpdate [("x", Val.int 0), ("y", Val.int 2)] [("x", Val.int 1)],
           Option.none) ∧
    ([("x", Val.int 1)].map Prod.fst).Nodup ∧
    dictGet? [("x", Val.int 1)] "x" = some (Val.int 1) ∧
    dictGet? (dictUpdate [("x", Val.int 0), ("y", Val.int 2)]
      [("x", Val.int 1)]) "x" = some (Val.int 1) ∧
    dictGet? [("x", Val.int 1)] "y" = Option.none ∧
    dictGet? (dictUpdate [("x", Val.int 0), ("y", Val.int 2)]
        [("x", Val.int 1)]) "y" =
      dictGet? [("x", Val.int 0), ("y", Val.int 2)] "y" :=
  ⟨C5_merge_semantics.1 "n" (fun _ => .ok (.dict [("x", Val.int 1)]))
      [("x", Val.int 0), ("y", Val.int 2)] [("x", Val.int 1)] rfl,
   by decide, by decide,
   C5_merge_semantics.2.1 [("x", Val.int 0), ("y", Val.int 2)]
     [("x", Val.int 1)] "x" (Val.int 1) (by decide) (by decide),
   by decide,
   C5_merge_semantics.2.2.1 [("x", Val.int 0), ("y", Val.int 2)]
     [("x", Val.int 1)] "y" (by decide)⟩

/-- Claim C6: whenever next-node selection falls through to the edge
mapping and the entry for the current node is a non-empty list, the engine
takes the first element as the next node — for every run state `st`, i.e.
regardless of the state's contents — and resets the loop counter to 0. -/
theorem C6_branch_first (env : Env) (graph : GraphDefinition)
    (rem iter lc inv succ : Nat) (st st2 : StateD)
    (log : List ExecutionLogEntry) (cur path n : String) (rest : List String)
    (f : NodeFun) (h1 : dictGet? graph.nodes cur = some path) (h2 : path ≠ "")
    (h3 : env.load path = .ok f)
    (h4 : execute_node cur f st = .ok (st2, Option.none))
    (h5 : dictGet? graph.edges cur = some (.multi (n :: rest))) :
    runLoop env graph (rem + 1) iter (some cur) lc st log inv succ =
      runLoop env graph rem (iter + 1) (some n) 0 st2
        (log ++ [⟨cur, st2, iter + 1, "completed"⟩]) (inv + 1) (succ + 1) :=
  runLoop_succ_next env graph rem iter (some cur) lc st log inv succ
    (some n) 0 st2 (log ++ [⟨cur, st2, iter + 1, "completed"⟩]) (inv + 1) (succ + 1)
    (loopStep_edge_multi env graph (iter + 1) cur lc st log inv succ path f st2
      n rest h1 h2 h3 h4 h5)

theorem C6_witness :
    runLoop envOne graphBranch 5 0 (some "a") 7 [("s", Val.int 3)] [] 0 0 =
      runLoop envOne graphBranch 4 1 (some "b") 0 [("s", Val.int 3)]
        [⟨"a", [("s", Val.int 3)], 1, "completed"⟩] 1 1 :=
  C6_branch_first envOne graphBranch 4 0 7 0 0 [("s", Val.int 3)]
    [("s", Val.int 3)] [] "a" "pa" "b" ["c"] (fun _ => .ok .other)
    (by decide) (by decide) rfl rfl (by decide)

/-- Claim C7: calling `execute_graph` with an unknown graph id fails with a
not-found error before any run is created (the store is returned
unchanged); calling it with a truthy start node that is not a declared node
name creates the run record first, then fails with a validation error — the
run exists in the returned store with an empty log. -/
theorem C7_start_validation_asymmetry :
    (∀ (env : Env) (st : Store) (gid : String) (init : StateD)
       (start : Option String), Store.get_graph st gid = Option.none →
       execute_graph env st gid init start =
         (st, .error ("Graph " ++ gid ++ " not found"))) ∧
    (∀ (env : Env) (st : Store) (gid sn : String) (init : StateD)
       (graph : GraphDefinition), Store.get_graph st gid = some graph →
       sn ≠ "" → dictContains graph.nodes sn = false →
       execute_graph env st gid init (some sn) =
         ((Store.create_run st gid init).1,
          .error ("Start node " ++ sn ++ " not found in graph")) ∧
       Store.get_run (Store.create_run st gid init).1
           (Store.create_run st gid init).2 =
         some (initialRunState (Store.create_run st gid init).2 gid init) ∧
       (initialRunState (Store.create_run st gid init).2 gid init).log = []) := by
  constructor
  · intro env st gid init start hg
    simp [execute_graph, hg]
  · intro env st gid sn init graph hg hsn hmem
    have hget : Store.get_run (Store.create_run st gid init).1
        (Store.create_run st gid init).2 =
        some (initialRunState (Store.create_run st gid init).2 gid init) := by
      show dictGet? (dictSet st.runs _ _) _ = _
      exact dictGet?_dictSet_self st.runs _ _
    have hres : resolveStart graph (some sn) =
        .error ("Start node " ++ sn ++ " not found in graph") := by
      simp [resolveStart, hsn, hmem]
    refine ⟨?_, hget, rfl⟩
    simp only [execute_graph, hg, hget, hres]

theorem C7_witness :
    execute_graph envOne (storeOf graphOne) "h" [] Option.none =
      (storeOf graphOne, .error ("Graph " ++ "h" ++ " not found")) ∧
    execute_graph envOne (storeOf graphOne) "g" [] (some "zz") =
      ((Store.create_run (storeOf graphOne) "g" []).1,
       .error ("Start node " ++ "zz" ++ " not found in graph")) ∧
    Store.get_run (Store.create_run (storeOf graphOne) "g" []).1
        (Store.create_run (storeOf graphOne) "g" []).2 =
      some (initialRunState (Store.create_run (storeOf graphOne) "g" []).2 "g" []) ∧
    (initialRunState (Store.create_run (storeOf graphOne) "g" []).2 "g" []).log = [] :=
  ⟨C7_start_validation_asymmetry.1 envOne (storeOf graphOne) "h" [] Option.none
     (by decide),
   (C7_start_validation_asymmetry.2 envOne (storeOf graphOne) "g" "zz" []
     graphOne (by decide) (by decide) (by decide)).1,
   (C7_start_validation_asymmetry.2 envOne (storeOf graphOne) "g" "zz" []
     graphOne (by decide) (by decide) (by decide)).2.1,
   (C7_start_validation_asymmetry.2 envOne (storeOf graphOne) "g" "zz" []
     graphOne (by decide) (by decide) (by decide)).2.2⟩


/-! Finalization helpers. -/

theorem finalize_brk (rs : RunState) (out : LoopOut) (h : out.exit = .brk) :
    finalizeRun rs out =
      { rs with state := out.state, log := out.log, status := "completed",
                current_node := Option.none } := by
  unfold finalizeRun
  rw [h]

theorem finalize_maxiter (rs : RunState) (out : LoopOut)
    (h : out.exit = .maxiter) :
    finalizeRun rs out =
      { rs with state := out.state, log := out.log, status := "failed",
                error := some maxIterationsMsg, current_node := Option.none } := by
  unfold finalizeRun
  rw [h]

theorem finalize_exc (rs : RunState) (out : LoopOut) (msg : String)
    (cur : Option String) (h : out.exit = .exc msg cur) :
    finalizeRun rs out =
      if out.log = [] then
        { rs with state := out.state, status := "failed", error := some msg,
                  current_node := Option.none,
                  log := [{ node_name := orUnknown cur, state_snapshot := out.state,
                            timestamp := out.iters, status := "error" }] }
      else
        { rs with state := out.state, status := "failed", error := some msg,
                  current_node := Option.none, log := markLastError out.log } := by
  unfold finalizeRun
  rw [h]

/-- After an exception exit the trailing log entry has status `error`. -/
theorem finalize_exc_lastStatus (rs : RunState) (out : LoopOut) (msg : String)
    (cur : Option String) (h : out.exit = .exc msg cur) :
    lastStatus (finalizeRun rs out).log = some "error" := by
  rw [finalize_exc rs out msg cur h]
  by_cases hl : out.log = []
  · simp [hl, lastStatus]
  · simp only [hl, if_neg hl, if_false]
    exact lastStatus_markLastError out.log hl

/-! ## Claim theorems (continued) -/

/-- Claim C1 counterexample: on the graph `a → b` where node `a` succeeds
and node `b` raises, two node invocations are attempted but the run's final
log holds a single entry: the failing attempt appended no entry of its own
(the successful first attempt's entry was instead re-marked `error`), so
the log does not contain one entry per attempted invocation. -/
theorem C1_counterexample :
    (engineLoop envFail graphFail (some "a") []).invocations = 2 ∧
    (execute_graph envFail (storeOf graphFail) "g" [] Option.none).2.map
        (fun rs => (rs.log.length, rs.log.map (fun e => e.node_name),
                    lastStatus rs.log)) =
      .ok (1, ["a"], some "error") := by
  constructor <;> decide

/-- Claim C1 (amended): for every environment and graph, the run's log
holds exactly one entry per successful node invocation, in execution order
(strictly increasing timestamps); a failing attempt appends no entry of its
own — after finalization the trailing entry is instead marked `error` (one
being synthesized when the log is empty), while on a completion or
iteration-limit exit the log is left as appended, its trailing entry (when
one exists) keeping the `completed` status of its successful attempt. -/
theorem C1_log_audit_trail (env : Env) (graph : GraphDefinition)
    (rs : RunState) (current : Option String) (init : StateD) :
    (engineLoop env graph current init).log.length =
      (engineLoop env graph current init).successes ∧
    (engineLoop env graph current init).log.Pairwise
      (fun a b => a.timestamp < b.timestamp) ∧
    (∀ msg c, (engineLoop env graph current init).exit = .exc msg c →
      lastStatus (finalizeRun rs (engineLoop env graph current init)).log =
        some "error") ∧
    ((engineLoop env graph current init).exit = .brk ∨
        (engineLoop env graph current init).exit = .maxiter →
      (finalizeRun rs (engineLoop env graph current init)).log =
          (engineLoop env graph current init).log ∧
      ((engineLoop env graph current init).log ≠ [] →
        lastStatus (finalizeRun rs (engineLoop env graph current init)).log =
          some "completed")) := by
  obtain ⟨extra, h1, h2, h3, h4, h5, h6, h7, h8, h9, h10⟩ :=
    runLoop_spec env graph max_iterations 0 current 0 init [] 0 0
  have hE : engineLoop env graph current init =
      runLoop env graph max_iterations 0 current 0 init [] 0 0 := rfl
  rw [hE]
  refine ⟨by rw [h1, h2]; simp, by rw [h1]; simpa using h9, ?_, ?_⟩
  · intro msg c hexc
    exact finalize_exc_lastStatus rs _ msg c hexc
  · intro hex
    have hlogeq : (finalizeRun rs
        (runLoop env graph max_iterations 0 current 0 init [] 0 0)).log =
        (runLoop env graph max_iterations 0 current 0 init [] 0 0).log := by
      rcases hex with hex | hex
      · rw [finalize_brk rs _ hex]
      · rw [finalize_maxiter rs _ hex]
    refine ⟨hlogeq, ?_⟩
    intro hne
    rw [hlogeq]
    apply lastStatus_all_eq _ _ hne
    intro e he
    rw [h1] at he
    simp only [List.nil_append] at he
    exact (h8 e he).2.2

theorem C1_witness :
    (engineLoop envOne graphOne (some "a") []).log.length =
      (engineLoop envOne graphOne (some "a") []).successes ∧
    (finalizeRun (initialRunState "run-0" "g" [])
        (engineLoop envOne graphOne (some "a") [])).log =
      (engineLoop envOne graphOne (some "a") []).log ∧
    lastStatus (finalizeRun (initialRunState "run-0" "g" [])
      (engineLoop envOne graphOne (some "a") [])).log = some "completed" := by
  have h := C1_log_audit_trail envOne graphOne (initialRunState "run-0" "g" [])
    (some "a") []
  exact ⟨h.1, (h.2.2.2 (Or.inl (by decide))).1,
    (h.2.2.2 (Or.inl (by decide))).2 (by decide)⟩

/-- Claim C9: when start-node determination fails after the run record has
been created (a truthy start node that is not declared, or no start node on
a graph whose node mapping is empty), the error propagates uncaught out of
`execute_graph`: the call returns the error, and the run stored under the
fresh id is still the initial record — status `running`, empty log, no
current node, no error — never updated to a terminal status. -/
theorem C9_orphaned_run (env : Env) (st : Store) (gid : String)
    (init : StateD) (graph : GraphDefinition)
    (hg : Store.get_graph st gid = some graph) :
    (∀ sn, sn ≠ "" → dictContains graph.nodes sn = false →
      (execute_graph env st gid init (some sn)).2 =
        .error ("Start node " ++ sn ++ " not found in graph") ∧
      Store.get_run (execute_graph env st gid init (some sn)).1
          (Store.create_run st gid init).2 =
        some (initialRunState (Store.create_run st gid init).2 gid init)) ∧
    (graph.nodes = [] →
      (execute_graph env st gid init Option.none).2 =
        .error "Graph has no nodes" ∧
      Store.get_run (execute_graph env st gid init Option.none).1
          (Store.create_run st gid init).2 =
        some (initialRunState (Store.create_run st gid init).2 gid init)) ∧
    (∀ rid, (initialRunState rid gid init).status = "running" ∧
      (initialRunState rid gid init).log = [] ∧
      (initialRunState rid gid init).current_node = Option.none ∧
      (initialRunState rid gid init).error = Option.none) := by
  have hget : Store.get_run (Store.create_run st gid init).1
      (Store.create_run st gid init).2 =
      some (initialRunState (Store.create_run st gid init).2 gid init) := by
    show dictGet? (dictSet st.runs _ _) _ = _
    exact dictGet?_dictSet_self st.runs _ _
  refine ⟨?_, ?_, fun rid => ⟨rfl, rfl, rfl, rfl⟩⟩
  · intro sn hsn hmem
    have hres : resolveStart graph (some sn) =
        .error ("Start node " ++ sn ++ " not found in graph") := by
      simp [resolveStart, hsn, hmem]
    constructor
    · simp only [execute_graph, hg, hget, hres]
    · simp only [execute_graph, hg, hget, hres]
  · intro hn
    have hres : resolveStart graph Option.none = .error "Graph has no nodes" := by
      simp [resolveStart, firstNode, hn]
    constructor
    · simp only [execute_graph, hg, hget, hres]
    · simp only [execute_graph, hg, hget, hres]

theorem C9_witness :
    (execute_graph envOne (storeOf graphOne) "g" [] (some "zz")).2 =
      .error ("Start node " ++ "zz" ++ " not found in graph") ∧
    Store.get_run (execute_graph envOne (storeOf graphOne) "g" [] (some "zz")).1
        (Store.create_run (storeOf graphOne) "g" []).2 =
      some (initialRunState (Store.create_run (storeOf graphOne) "g" []).2 "g" []) ∧
    (execute_graph envOne (storeOf graphEmpty) "g" [] Option.none).2 =
      .error "Graph has no nodes" ∧
    (initialRunState "run-0" "g" []).status = "running" := by
  have h1 := C9_orphaned_run envOne (storeOf graphOne) "g" [] graphOne (by decide)
  have h2 := C9_orphaned_run envOne (storeOf graphEmpty) "g" [] graphEmpty (by decide)
  exact ⟨(h1.1 "zz" (by decide) (by decide)).1, (h1.1 "zz" (by decide) (by decide)).2,
    (h2.2.1 (by decide)).1, (h1.2.2 "run-0").1⟩

/-- Claim C10: a node returning `goto:X` where `X` is its own name has the
jump treated as a node change — the loop counter resets to 0 although the
current node is unchanged — so a node re-entering itself by self-goto never
triggers the 100-consecutive-repeat loop limit: the one-node self-goto run
is bounded only by the global cap, failing with the iteration-limit error
after `max_iterations` log entries. -/
theorem C10_self_goto :
    (∀ (env : Env) (graph : GraphDefinition) (rem iter lc inv succ : Nat)
       (st st2 : StateD) (log : List ExecutionLogEntry) (cur path : String)
       (f : NodeFun), dictGet? graph.nodes cur = some path → path ≠ "" →
       env.load path = .ok f →
       execute_node cur f st = .ok (st2, some cur) → cur ≠ "repeat" →
       strStartsWith cur "goto:" = false → cur ≠ "" →
       runLoop env graph (rem + 1) iter (some cur) lc st log inv succ =
         runLoop env graph rem (iter + 1) (some cur) 0 st2
           (log ++ [⟨cur, st2, iter + 1, "completed"⟩]) (inv + 1) (succ + 1)) ∧
    (execute_graph envGoto (storeOf graphGoto) "g" [] Option.none).2.map
        (fun rs => (rs.status, rs.error, rs.log.length)) =
      .ok ("failed", some maxIterationsMsg, max_iterations) := by
  constructor
  · intro env graph rem iter lc inv succ st st2 log cur path f h1 h2 h3 h4 ha1 ha2 ha3
    exact runLoop_succ_next env graph rem iter (some cur) lc st log inv succ
      (some cur) 0 st2 (log ++ [⟨cur, st2, iter + 1, "completed"⟩])
      (inv + 1) (succ + 1)
      (loopStep_jump env graph (iter + 1) cur lc st log inv succ path f st2 cur
        h1 h2 h3 h4 ha1 ha2 ha3)
  · have hexit : (engineLoop envGoto graphGoto (some "a") []).exit = .maxiter :=
      goto_maxiter max_iterations 0 0 [] [] 0 0
    obtain ⟨extra, h1, h2, h3, h4, h5, h6, h7, h8, h9, h10⟩ :=
      runLoop_spec envGoto graphGoto max_iterations 0 (some "a") 0 [] [] 0 0
    have hE : engineLoop envGoto graphGoto (some "a") [] =
        runLoop envGoto graphGoto max_iterations 0 (some "a") 0 [] [] 0 0 := rfl
    rw [execute_graph_eq envGoto (storeOf graphGoto) "g" [] Option.none
      graphGoto "a" (by decide) (by decide)]
    rw [show (Store.create_run (storeOf graphGoto) "g" []).2 = "run-0" from rfl]
    rw [finalize_maxiter _ _ hexit]
    simp only [Except.map]
    rw [hE, h1, List.nil_append, (h10 (hE ▸ hexit)).2]

theorem C10_witness :
    runLoop envGoto graphGoto 5 0 (some "a") 42 [] [] 0 0 =
      runLoop envGoto graphGoto 4 1 (some "a") 0 []
        [⟨"a", [], 1, "completed"⟩] 1 1 := by
  have h := C10_self_goto.1 envGoto graphGoto 4 0 42 0 0 [] [] []
    "a" "pa" (fun _ => .ok (.str "goto:a")) (by decide) (by decide) rfl
    (gotoExec []) (by decide) (by decide) (by decide)
  simpa using h


/-- Claim C2 (amended): every abort raised as an exception inside the
traversal (resolution failure, node-execution error, node missing from the
definition, loop-limit) finalizes with status `failed`, the raised message
as the error, `current_node` cleared, and the trailing entry of the
non-empty log marked `error` (synthesized when none exists); the
iteration-limit abort also finalizes with status `failed`, the
iteration-limit message, and `current_node` cleared, but leaves the log as
appended — its trailing entry keeps status `completed`. -/
theorem C2_abort_paths (env : Env) (graph : GraphDefinition) (rs : RunState)
    (current : Option String) (init : StateD) :
    (∀ msg c, (engineLoop env graph current init).exit = .exc msg c →
      (finalizeRun rs (engineLoop env graph current init)).status = "failed" ∧
      (finalizeRun rs (engineLoop env graph current init)).error = some msg ∧
      (finalizeRun rs (engineLoop env graph current init)).current_node =
        Option.none ∧
      (finalizeRun rs (engineLoop env graph current init)).log ≠ [] ∧
      lastStatus (finalizeRun rs (engineLoop env graph current init)).log =
        some "error") ∧
    ((engineLoop env graph current init).exit = .maxiter →
      (finalizeRun rs (engineLoop env graph current init)).status = "failed" ∧
      (finalizeRun rs (engineLoop env graph current init)).error =
        some maxIterationsMsg ∧
      (finalizeRun rs (engineLoop env graph current init)).current_node =
        Option.none ∧
      (finalizeRun rs (engineLoop env graph current init)).log =
        (engineLoop env graph current init).log) := by
  constructor
  · intro msg c hexc
    have hfe := finalize_exc rs _ msg c hexc
    refine ⟨?_, ?_, ?_, ?_, finalize_exc_lastStatus rs _ msg c hexc⟩
    · by_cases hl : (engineLoop env graph current init).log = [] <;> simp [hfe, hl]
    · by_cases hl : (engineLoop env graph current init).log = [] <;> simp [hfe, hl]
    · by_cases hl : (engineLoop env graph current init).log = [] <;> simp [hfe, hl]
    · by_cases hl : (engineLoop env graph current init).log = []
      · simp [hfe, hl]
      · simp only [hfe, if_neg hl]
        intro hc
        have hlen := markLastError_length (engineLoop env graph current init).log
        rw [hc] at hlen
        exact hl (List.length_eq_zero.mp hlen.symm)
  · intro hmx
    rw [finalize_maxiter rs _ hmx]
    exact ⟨rfl, rfl, rfl, rfl⟩

theorem C2_witness :
    (finalizeRun (initialRunState "run-0" "g" [])
        (engineLoop envFail graphFail (some "a") [])).status = "failed" ∧
    (finalizeRun (initialRunState "run-0" "g" [])
        (engineLoop envFail graphFail (some "a") [])).error =
      some ("Error executing node " ++ "b" ++ ": " ++ "boom") ∧
    (finalizeRun (initialRunState "run-0" "g" [])
        (engineLoop envFail graphFail (some "a") [])).current_node =
      Option.none ∧
    (finalizeRun (initialRunState "run-0" "g" [])
        (engineLoop envFail graphFail (some "a") [])).log ≠ [] ∧
    lastStatus (finalizeRun (initialRunState "run-0" "g" [])
      (engineLoop envFail graphFail (some "a") [])).log = some "error" :=
  (C2_abort_paths envFail graphFail (initialRunState "run-0" "g" [])
      (some "a") []).1
    ("Error executing node " ++ "b" ++ ": " ++ "boom") (some "b") (by decide)

/-- Claim C2 counterexample: the iteration-limit abort (cycling two-node
graph) yields a failed run whose trailing log entry still has status
`completed`, not `error` — so not every abort path makes the log's trailing
entry reflect the error. -/
theorem C2_counterexample :
    (execute_graph envCycle (storeOf graphCycle) "g" [] Option.none).2.map
        (fun rs => (rs.status, rs.error, lastStatus rs.log)) =
      .ok ("failed", some maxIterationsMsg, some "completed") := by
  have hexit : (engineLoop envCycle graphCycle (some "a") []).exit = .maxiter :=
    cycle_maxiter max_iterations 0 0 [] [] 0 0 "a" (Or.inl rfl)
  obtain ⟨extra, h1, h2, h3, h4, h5, h6, h7, h8, h9, h10⟩ :=
    runLoop_spec envCycle graphCycle max_iterations 0 (some "a") 0 [] [] 0 0
  have hE : engineLoop envCycle graphCycle (some "a") [] =
      runLoop envCycle graphCycle max_iterations 0 (some "a") 0 [] [] 0 0 := rfl
  have hlen : extra.length = max_iterations := (h10 (hE ▸ hexit)).2
  have hne : (engineLoop envCycle graphCycle (some "a") []).log ≠ [] := by
    rw [hE, h1]
    simp only [List.nil_append]
    intro hc
    rw [hc] at hlen
    simp [max_iterations] at hlen
  have hcomp : lastStatus (engineLoop envCycle graphCycle (some "a") []).log =
      some "completed" := by
    apply lastStatus_all_eq _ _ hne
    intro e he
    rw [hE, h1] at he
    simp only [List.nil_append] at he
    exact (h8 e he).2.2
  rw [execute_graph_eq envCycle (storeOf graphCycle) "g" [] Option.none
    graphCycle "a" (by decide) (by decide)]
  simp only [Except.map]
  rw [finalize_maxiter _ _ hexit]
  simp only []
  rw [hcomp]

/-- Claim C3: a node returning the literal `repeat` below the cap keeps the
current node unchanged and the edges are not consulted (the step equation
holds for every edge mapping, continuing on the same node with the loop
counter incremented); and the one-node always-`repeat` run ends failed with
the error naming the loop-iteration limit at its 100th consecutive
invocation, the log's final entry having status `error`. -/
theorem C3_repeat_loop_limit :
    (∀ (env : Env) (nodes : PyDict String) (edges : PyDict EdgeTarget)
       (rem iter lc inv succ : Nat) (st st2 : StateD)
       (log : List ExecutionLogEntry) (cur path : String) (f : NodeFun),
       dictGet? nodes cur = some path → path ≠ "" → env.load path = .ok f →
       execute_node cur f st = .ok (st2, some "repeat") →
       lc + 1 < max_loop_iterations →
       runLoop env ⟨nodes, edges⟩ (rem + 1) iter (some cur) lc st log inv succ =
         runLoop env ⟨nodes, edges⟩ rem (iter + 1) (some cur) (lc + 1) st2
           (log ++ [⟨cur, st2, iter + 1, "completed"⟩]) (inv + 1) (succ + 1)) ∧
    (execute_graph envRepeat (storeOf graphRepeat) "g" [] Option.none).2.map
        (fun rs => (rs.status, rs.error, lastStatus rs.log, rs.log.length)) =
      .ok ("failed", some loopLimitMsg, some "error", max_loop_iterations) := by
  constructor
  · intro env nodes edges rem iter lc inv succ st st2 log cur path f h1 h2 h3 h4 h5
    exact runLoop_succ_next env ⟨nodes, edges⟩ rem iter (some cur) lc st log inv
      succ (some cur) (lc + 1) st2 (log ++ [⟨cur, st2, iter + 1, "completed"⟩])
      (inv + 1) (succ + 1)
      (loopStep_repeat env ⟨nodes, edges⟩ (iter + 1) cur lc st log inv succ path
        f st2 h1 h2 h3 h4 h5)
  · obtain ⟨extra, hrun, hlen⟩ :=
      repeat_run 99 max_iterations 0 0 0 0 [] [] (by decide) (by decide)
    have hne : extra ≠ [] := by
      intro hc
      rw [hc] at hlen
      simp at hlen
    have hE : engineLoop envRepeat graphRepeat (some "a") [] =
        runLoop envRepeat graphRepeat max_iterations 0 (some "a") 0 [] [] 0 0 := rfl
    rw [execute_graph_eq envRepeat (storeOf graphRepeat) "g" [] Option.none
      graphRepeat "a" (by decide) (by decide)]
    simp only [Except.map]
    rw [hE, hrun]
    rw [finalize_exc _ _ loopLimitMsg (some "a") rfl]
    simp only [List.nil_append]
    rw [if_neg hne]
    simp only []
    rw [lastStatus_markLastError extra hne, markLastError_length extra, hlen]
    decide

theorem C3_witness :
    runLoop envRepeat graphRepeat 5 0 (some "a") 0 [] [] 0 0 =
      runLoop envRepeat graphRepeat 4 1 (some "a") 1 []
        [⟨"a", [], 1, "completed"⟩] 1 1 := by
  have h := C3_repeat_loop_limit.1 envRepeat [("a", "pa")] [] 4 0 0 0 0 [] []
    [] "a" "pa" (fun _ => .ok (.str "repeat")) (by decide) (by decide) rfl
    (by decide) (by decide)
  exact h

/-- Claim C4: the traversal loop performs at most `max_iterations` = 1000
node invocations for any environment, graph and node behavior (it always
terminates); and on the cycling two-node graph whose nodes return no
control-flow strings, the run ends failed with the iteration-limit error
after exactly 1000 log entries. -/
theorem C4_iteration_cap :
    (∀ (env : Env) (graph : GraphDefinition) (rem iter : Nat)
       (current : Option String) (lc : Nat) (st : StateD)
       (log : List ExecutionLogEntry) (inv succ : Nat),
       (runLoop env graph rem iter current lc st log inv succ).invocations ≤
         inv + rem) ∧
    (∀ (env : Env) (graph : GraphDefinition) (current : Option String)
       (init : StateD),
       (engineLoop env graph current init).invocations ≤ max_iterations) ∧
    (execute_graph envCycle (storeOf graphCycle) "g" [] Option.none).2.map
        (fun rs => (rs.status, rs.error, rs.log.length)) =
      .ok ("failed", some maxIterationsMsg, max_iterations) := by
  have hbound : ∀ (env : Env) (graph : GraphDefinition) (rem iter : Nat)
      (current : Option String) (lc : Nat) (st : StateD)
      (log : List ExecutionLogEntry) (inv succ : Nat),
      (runLoop env graph rem iter current lc st log inv succ).invocations ≤
        inv + rem := by
    intro env graph rem iter current lc st log inv succ
    obtain ⟨extra, h1, h2, h3, h4, _⟩ :=
      runLoop_spec env graph rem iter current lc st log inv succ
    exact h4
  refine ⟨hbound, ?_, ?_⟩
  · intro env graph current init
    simpa using hbound env graph max_iterations 0 current 0 init [] 0 0
  · have hexit : (engineLoop envCycle graphCycle (some "a") []).exit = .maxiter :=
      cycle_maxiter max_iterations 0 0 [] [] 0 0 "a" (Or.inl rfl)
    obtain ⟨extra, h1, h2, h3, h4, h5, h6, h7, h8, h9, h10⟩ :=
      runLoop_spec envCycle graphCycle max_iterations 0 (some "a") 0 [] [] 0 0
    have hE : engineLoop envCycle graphCycle (some "a") [] =
        runLoop envCycle graphCycle max_iterations 0 (some "a") 0 [] [] 0 0 := rfl
    have hlen : extra.length = max_iterations := (h10 (hE ▸ hexit)).2
    rw [execute_graph_eq envCycle (storeOf graphCycle) "g" [] Option.none
      graphCycle "a" (by decide) (by decide)]
    simp only [Except.map]
    rw [finalize_maxiter _ _ hexit]
    simp only []
    rw [hE, h1, List.nil_append, hlen]


/-- Claim C8 counterexample: the log snapshots and the run's initial state
are shallow copies, not deep copies. Running the graph `a → b` on initial
state `{"box": ref 0}` with heap cell 0 holding 0, where node `b` mutates
the nested object in place (cell 0 := 99): the run completes with two
entries; node `a`'s entry was taken while the nested value was 0, yet after
the run both that earlier snapshot and the caller's input mapping read 99
through the shared cell — a later invocation's mutation of a nested value
altered them, contrary to the claim. -/
theorem C8_counterexample :
    (hExecuteRun envHeap graphHeap "g" [("box", HVal.ref 0)] "a"
      [(0, 0)]).1.status = "completed" ∧
    (hExecuteRun envHeap graphHeap "g" [("box", HVal.ref 0)] "a"
      [(0, 0)]).1.log.map (fun e => e.node_name) = ["a", "b"] ∧
    observeState [(0, 0)] [("box", HVal.ref 0)] = [("box", Obs.int 0)] ∧
    ((hExecuteRun envHeap graphHeap "g" [("box", HVal.ref 0)] "a"
        [(0, 0)]).1.log.head?.map
      (fun e => observeState
        (hExecuteRun envHeap graphHeap "g" [("box", HVal.ref 0)] "a" [(0, 0)]).2
        e.state_snapshot)) = some [("box", Obs.int 99)] ∧
    observeState
      (hExecuteRun envHeap graphHeap "g" [("box", HVal.ref 0)] "a" [(0, 0)]).2
      [("box", HVal.ref 0)] = [("box", Obs.int 99)] := by
  exact ⟨by decide, by decide, by decide, by decide, by decide⟩

/-- Claim C8 (amended): log snapshots and the run's initial state are
shallow copies (Python `dict.copy()`): the top-level mapping of each
snapshot is fixed when the entry is appended — later merges that rebind or
add top-level keys leave earlier snapshots and the caller's mapping
untouched — but nested mutable values stay shared, so an in-place mutation
of a nested value by a later node invocation is visible through earlier
snapshots and through the caller's input mapping. Exhibited on the heap
scenario: node `b` adds the top-level key `y` and mutates the shared cell;
node `a`'s earlier snapshot still holds exactly the key `box` bound to the
same reference (no `y` appears), while reading that snapshot or the
caller's mapping through the final heap yields the mutated 99. -/
theorem C8_shallow_copy :
    ((hExecuteRun envHeap graphHeap "g" [("box", HVal.ref 0)] "a"
        [(0, 0)]).1.log.head?.map (fun e => e.state_snapshot)) =
      some [("box", HVal.ref 0)] ∧
    (hExecuteRun envHeap graphHeap "g" [("box", HVal.ref 0)] "a"
      [(0, 0)]).1.state = [("box", HVal.ref 0), ("y", HVal.int 1)] ∧
    observeState
      (hExecuteRun envHeap graphHeap "g" [("box", HVal.ref 0)] "a" [(0, 0)]).2
      [("box", HVal.ref 0)] = [("box", Obs.int 99)] ∧
    ((hExecuteRun envHeap graphHeap "g" [("box", HVal.ref 0)] "a"
        [(0, 0)]).1.log.head?.map
      (fun e => observeState
        (hExecuteRun envHeap graphHeap "g" [("box", HVal.ref 0)] "a" [(0, 0)]).2
        e.state_snapshot)) = some [("box", Obs.int 99)] := by
  exact ⟨by decide, by decide, by decide, by decide⟩


end Workflow
